import Mathlib

/-!
Shallow embedding of the agent-infrastructure-stack gateway core, translated
from the TypeScript sources: the semantic intent router
(packages/intent-router), the embedding service and its TTL cache, the
sandbox runtime pool, the protocol adapters and dispatcher
(packages/protocol-adapter), and the buffered audit stream
(packages/audit-interface).  JavaScript numbers are modelled as exact
rationals (reals for the analytic embedding generator); JS `Map`s as
association lists in insertion order; thrown exceptions as `Except`;
wall-clock timestamps as explicit natural-number parameters.
-/

/-! ## Shared utilities (packages/shared/src/utils) -/

/-- `clamp(value, min, max)` from the shared utils:
`Math.min(Math.max(value, min), max)`. -/
def clamp (value lo hi : ℚ) : ℚ := min (max value lo) hi

/-- Models `x.toFixed(1)` for a non-negative JS number: the value rounded to
one decimal place, rendered as "<int>.<digit>" (ties round up, as for the
non-negative arguments the router feeds it). -/
def toFixed1 (q : ℚ) : String :=
  let n : ℕ := (⌊q * 10 + 1 / 2⌋ : ℤ).toNat
  toString (n / 10) ++ "." ++ toString (n % 10)

/-- Models `x.toFixed(2)` for a non-negative JS number (used only inside the
router's human-readable reasoning string). -/
def toFixed2 (q : ℚ) : String :=
  let n : ℕ := (⌊q * 100 + 1 / 2⌋ : ℤ).toNat
  toString (n / 100) ++ "." ++ toString (n % 100 / 10) ++ toString (n % 10)

/-- JS `a || b` for an optional number: `b` when missing or falsy (0). -/
def jsOrQ (o : Option ℚ) (d : ℚ) : ℚ :=
  match o with
  | some v => if v = 0 then d else v
  | none => d

/-- JS `a || b` for an optional count: `b` when missing or falsy (0). -/
def jsOrN (o : Option ℕ) (d : ℕ) : ℕ :=
  match o with
  | some v => if v = 0 then d else v
  | none => d

/-! ## Intent router data model (packages/intent-router/src/types.ts and
shared ToolDefinition).  Fields not consulted by the router (schemas,
credential ids, source protocol) are omitted. -/

structure CostEstimate where
  min : ℚ
  max : ℚ
deriving DecidableEq, Repr

structure ToolDefinition where
  id : String
  name : String
  description : String
  costEstimate : Option CostEstimate
  latencyEstimate : Option ℚ
deriving DecidableEq, Repr

structure RouterConfig where
  similarityThreshold : ℚ
  minConfidence : ℚ
  maxAlternatives : ℕ
  enableCostOptimization : Bool
  enableLatencyOptimization : Bool
deriving DecidableEq, Repr

/-- The defaults the IntentRouter constructor installs (from
SEMANTIC_ROUTING in the shared constants). -/
def defaultRouterConfig : RouterConfig :=
  { similarityThreshold := 85 / 100
    minConfidence := 7 / 10
    maxAlternatives := 3
    enableCostOptimization := true
    enableLatencyOptimization := true }

structure RouteOptions where
  maxAlternatives : Option ℕ
  minConfidence : Option ℚ
deriving DecidableEq, Repr

/-- A route call with no per-call options (`options = {}`). -/
def noRouteOptions : RouteOptions := ⟨none, none⟩

structure ToolMatch where
  tool : ToolDefinition
  score : ℚ
  confidence : ℚ
  reasoning : String
deriving DecidableEq, Repr

structure RoutingDecision where
  requestId : String
  selectedTool : ToolDefinition
  confidence : ℚ
  reasoning : String
  fallbackTools : List ToolDefinition
  estimatedLatency : ℚ
  estimatedCost : ℚ
  requiresApproval : Bool
  approvalReason : Option String
deriving DecidableEq, Repr

structure RouteError where
  code : String
  message : String
  suggestion : Option String
deriving DecidableEq, Repr

/-- RouteResult without the wall-clock performance block (real-time
measurements are not modelled). -/
structure RouteResult where
  success : Bool
  decision : Option RoutingDecision
  error : Option RouteError
  alternatives : List ToolMatch
deriving DecidableEq, Repr

/-! ## IntentRouter (packages/intent-router/src/router.ts)

The embedding service appears as a parameter `sim : ToolDefinition → ℚ`,
the per-tool cosine similarity to the (fixed) intent embedding: in the
source, `matchTools` computes
`calculateSimilarity(intentEmbedding, embedToolDescription(tool.name,
tool.description).embedding)` per tool, which is a deterministic function
of the tool (the service caches by `tool:<name>` and the generator is
deterministic in the text). -/

/-- The cost adjustment step of `IntentRouter.calculateConfidence`: when cost
optimization is on and the tool carries a cost estimate (an object, hence
truthy whenever present), multiply by `0.9 + 0.1 * 1/(1 + cost/100)`. -/
def costAdjust (enabled : Bool) (ce : Option CostEstimate) (c : ℚ) : ℚ :=
  match enabled, ce with
  | true, some ce => c * (9 / 10 + 1 / 10 * (1 / (1 + ce.min / 100)))
  | _, _ => c

/-- The latency adjustment step of `IntentRouter.calculateConfidence`: when
latency optimization is on and `tool.latencyEstimate` is truthy (present and
non-zero), multiply by `0.9 + 0.1 * 1/(1 + latency/1000)`. -/
def latencyAdjust (enabled : Bool) (l : Option ℚ) (c : ℚ) : ℚ :=
  match enabled, l with
  | true, some l =>
      if l = 0 then c else c * (9 / 10 + 1 / 10 * (1 / (1 + l / 1000)))
  | _, _ => c

/-- `IntentRouter.calculateConfidence`: similarity, then the cost and latency
adjustments, clamped to [0,1]. -/
def calculateConfidence (cfg : RouterConfig) (similarity : ℚ)
    (tool : ToolDefinition) : ℚ :=
  clamp
    (latencyAdjust cfg.enableLatencyOptimization tool.latencyEstimate
      (costAdjust cfg.enableCostOptimization tool.costEstimate similarity))
    0 1

/-- `IntentRouter.generateReasoning`: the "; "-joined reason list. -/
def generateReasoning (tool : ToolDefinition) (similarity confidence : ℚ) :
    String :=
  let reasons : List String :=
    ["Semantic similarity: " ++ toFixed1 (similarity * 100) ++ "%"]
      ++ (match tool.costEstimate with
          | some ce => ["Cost: $" ++ toFixed2 (ce.min / 100)]
          | none => [])
      ++ (match tool.latencyEstimate with
          | some l => if l = 0 then [] else ["Latency: ~" ++ toString l ++ "ms"]
          | none => [])
      ++ (if confidence < similarity
          then ["Adjusted for cost/latency optimization"] else [])
  String.intercalate "; " reasons

/-- `IntentRouter.matchTools`: per tool compute similarity and adjusted
confidence, and keep the tools whose similarity reaches
`config.similarityThreshold`, in catalog order. -/
def matchTools (cfg : RouterConfig) (sim : ToolDefinition → ℚ)
    (tools : List ToolDefinition) : List ToolMatch :=
  tools.filterMap fun tool =>
    let similarity := sim tool
    let confidence := calculateConfidence cfg similarity tool
    if cfg.similarityThreshold ≤ similarity then
      some { tool := tool
             score := similarity
             confidence := confidence
             reasoning := generateReasoning tool similarity confidence }
    else none

/-- The descending-by-score order used by
`validMatches.sort((a, b) => b.score - a.score)`. -/
def scoreGe (a b : ToolMatch) : Prop := b.score ≤ a.score

instance : DecidableRel scoreGe := fun a b =>
  inferInstanceAs (Decidable (b.score ≤ a.score))

instance : IsTotal ToolMatch scoreGe := ⟨fun a b => le_total b.score a.score⟩

instance : IsTrans ToolMatch scoreGe :=
  ⟨fun _ _ _ h1 h2 => le_trans h2 h1⟩

/-- JS `Array.prototype.sort` is stable, so the sort in `route` is the
stable descending sort by score; any stable sort computes the same list, so
it is modelled by insertion sort. -/
def sortByScoreDesc (ms : List ToolMatch) : List ToolMatch :=
  List.insertionSort scoreGe ms

/-- The matches that survive the per-call confidence filter
`m.confidence >= (options.minConfidence || config.minConfidence)`. -/
def validMatches (cfg : RouterConfig) (opts : RouteOptions)
    (sim : ToolDefinition → ℚ) (tools : List ToolDefinition) :
    List ToolMatch :=
  (matchTools cfg sim tools).filter fun m =>
    jsOrQ opts.minConfidence cfg.minConfidence ≤ m.confidence

/-- The valid matches sorted by score descending (`validMatches.sort`). -/
def rankedMatches (cfg : RouterConfig) (opts : RouteOptions)
    (sim : ToolDefinition → ℚ) (tools : List ToolDefinition) :
    List ToolMatch :=
  sortByScoreDesc (validMatches cfg opts sim tools)

/-- The NO_MATCH route error object. -/
def routeNoMatchError : RouteError :=
  { code := "NO_MATCH"
    message := "No tools matched the intent with sufficient confidence"
    suggestion := some "Try rephrasing the request or adding more tools" }

/-- `IntentRouter.route` (the non-throwing path; the embedding service is
the `sim` parameter).  Sorting is a permutation, so testing emptiness after
the sort is the same test as the source's `validMatches.length === 0` before
it. -/
def route (cfg : RouterConfig) (opts : RouteOptions)
    (sim : ToolDefinition → ℚ) (requestId : String)
    (tools : List ToolDefinition) : RouteResult :=
  let allMatches := matchTools cfg sim tools
  match rankedMatches cfg opts sim tools with
  | [] =>
      { success := false
        decision := none
        error := some routeNoMatchError
        alternatives := allMatches.take 3 }
  | best :: rest =>
      let fallbackTools :=
        (rest.take (jsOrN opts.maxAlternatives cfg.maxAlternatives)).map
          ToolMatch.tool
      let decision : RoutingDecision :=
        { requestId := requestId
          selectedTool := best.tool
          confidence := best.confidence
          reasoning := best.reasoning
          fallbackTools := fallbackTools
          estimatedLatency := jsOrQ best.tool.latencyEstimate 100
          estimatedCost := jsOrQ (best.tool.costEstimate.map CostEstimate.min) 0
          requiresApproval := decide (best.confidence < 8 / 10)
          approvalReason :=
            if best.confidence < 8 / 10 then
              some ("Low confidence (" ++ toFixed1 (best.confidence * 100)
                ++ "%)")
            else none }
      { success := true
        decision := some decision
        error := none
        alternatives := rest }

/-! ## Router lemmas -/

theorem matchTools_score_threshold {cfg : RouterConfig}
    {sim : ToolDefinition → ℚ} {tools : List ToolDefinition} {m : ToolMatch}
    (hm : m ∈ matchTools cfg sim tools) : cfg.similarityThreshold ≤ m.score := by
  rcases List.mem_filterMap.mp hm with ⟨t, _, ht⟩
  by_cases h : cfg.similarityThreshold ≤ sim t
  · rw [if_pos h] at ht
    cases ht
    exact h
  · rw [if_neg h] at ht
    cases ht

theorem mem_rankedMatches {cfg : RouterConfig} {opts : RouteOptions}
    {sim : ToolDefinition → ℚ} {tools : List ToolDefinition} {m : ToolMatch} :
    m ∈ rankedMatches cfg opts sim tools ↔ m ∈ validMatches cfg opts sim tools :=
  (List.perm_insertionSort scoreGe (validMatches cfg opts sim tools)).mem_iff

theorem rankedMatches_sorted (cfg : RouterConfig) (opts : RouteOptions)
    (sim : ToolDefinition → ℚ) (tools : List ToolDefinition) :
    List.Sorted scoreGe (rankedMatches cfg opts sim tools) :=
  List.sorted_insertionSort scoreGe (validMatches cfg opts sim tools)

theorem rankedMatches_eq_nil {cfg : RouterConfig} {opts : RouteOptions}
    {sim : ToolDefinition → ℚ} {tools : List ToolDefinition}
    (h : rankedMatches cfg opts sim tools = []) :
    validMatches cfg opts sim tools = [] :=
  List.Perm.eq_nil ((List.perm_insertionSort scoreGe _).symm.trans (h ▸ List.Perm.refl _))

/-- C1 (amended): for every successful route call the selected tool is the
head of the ranked valid matches, its score reaches the configured
similarity threshold, the fallbacks are drawn from the remaining ranked
matches, and the selected score is at least (not necessarily strictly above)
every other ranked score. -/
theorem route_selected_score_dominates (cfg : RouterConfig)
    (opts : RouteOptions) (sim : ToolDefinition → ℚ) (requestId : String)
    (tools : List ToolDefinition)
    (hs : (route cfg opts sim requestId tools).success = true) :
    ∃ best rest, rankedMatches cfg opts sim tools = best :: rest
      ∧ (route cfg opts sim requestId tools).decision.map
          RoutingDecision.selectedTool = some best.tool
      ∧ (route cfg opts sim requestId tools).decision.map
          RoutingDecision.fallbackTools =
          some ((rest.take (jsOrN opts.maxAlternatives cfg.maxAlternatives)).map
            ToolMatch.tool)
      ∧ cfg.similarityThreshold ≤ best.score
      ∧ ∀ m ∈ rest, m.score ≤ best.score := by
  cases h : rankedMatches cfg opts sim tools with
  | nil => rw [route, h] at hs; exact Bool.noConfusion hs
  | cons best rest =>
      refine ⟨best, rest, rfl, ?_, ?_, ?_, ?_⟩
      · rw [route, h]; rfl
      · rw [route, h]; rfl
      · have hb : best ∈ rankedMatches cfg opts sim tools := by
          rw [h]; exact List.mem_cons_self _ _
        have hv := mem_rankedMatches.mp hb
        exact matchTools_score_threshold (List.mem_of_mem_filter hv)
      · have hsor := rankedMatches_sorted cfg opts sim tools
        rw [h] at hsor
        intro m hm
        exact (List.sorted_cons.mp hsor).1 m hm

def toolAlpha : ToolDefinition := ⟨"t1", "alpha", "first tool", none, none⟩

def toolBeta : ToolDefinition := ⟨"t2", "beta", "second tool", none, none⟩

/-- A similarity assignment giving both catalog tools the same score (the
service caches tool embeddings by name, so equal-scoring tools are
reachable, e.g. two tools sharing a name and description). -/
def simNinety : ToolDefinition → ℚ := fun _ => 9 / 10

/-- C1 counterexample: a successful route whose only fallback has the same
score as the selected tool, so the fallback score is not strictly lower. -/
theorem route_strict_fallback_cex :
    (route defaultRouterConfig noRouteOptions simNinety "r1"
        [toolAlpha, toolBeta]).success = true
    ∧ (route defaultRouterConfig noRouteOptions simNinety "r1"
        [toolAlpha, toolBeta]).decision.map RoutingDecision.fallbackTools =
        some [toolBeta]
    ∧ (rankedMatches defaultRouterConfig noRouteOptions simNinety
        [toolAlpha, toolBeta]).map ToolMatch.score = [9 / 10, 9 / 10]
    ∧ ¬ ((9 : ℚ) / 10 < 9 / 10) := by
  refine ⟨?_, ?_, ?_, lt_irrefl _⟩ <;>
    norm_num [route, rankedMatches, validMatches, matchTools, sortByScoreDesc,
      calculateConfidence, costAdjust, latencyAdjust, clamp, jsOrQ, jsOrN,
      defaultRouterConfig, noRouteOptions, toolAlpha, toolBeta, simNinety,
      min_def, max_def, List.filterMap_cons, scoreGe]

/-- A similarity assignment with distinct scores for the two catalog tools. -/
def simSplit : ToolDefinition → ℚ :=
  fun t => if t.id = "t1" then 9 / 10 else 87 / 100

/-- Witness for C1 at a concrete successful route call. -/
theorem route_selected_score_dominates_witness :
    ∃ best rest,
      rankedMatches defaultRouterConfig noRouteOptions simSplit
        [toolAlpha, toolBeta] = best :: rest
      ∧ (route defaultRouterConfig noRouteOptions simSplit "r1"
          [toolAlpha, toolBeta]).decision.map RoutingDecision.selectedTool =
          some best.tool
      ∧ (route defaultRouterConfig noRouteOptions simSplit "r1"
          [toolAlpha, toolBeta]).decision.map RoutingDecision.fallbackTools =
          some ((rest.take (jsOrN noRouteOptions.maxAlternatives
            defaultRouterConfig.maxAlternatives)).map ToolMatch.tool)
      ∧ defaultRouterConfig.similarityThreshold ≤ best.score
      ∧ ∀ m ∈ rest, m.score ≤ best.score :=
  route_selected_score_dominates defaultRouterConfig noRouteOptions simSplit
    "r1" [toolAlpha, toolBeta]
    (by
      norm_num [route, rankedMatches, validMatches, matchTools, sortByScoreDesc,
        calculateConfidence, costAdjust, latencyAdjust, clamp, jsOrQ, jsOrN,
        defaultRouterConfig, noRouteOptions,
        min_def, max_def, List.filterMap_cons, scoreGe,
        show simSplit toolAlpha = 9 / 10 from rfl,
        show simSplit toolBeta = 87 / 100 from rfl,
        show toolAlpha.costEstimate = none from rfl,
        show toolAlpha.latencyEstimate = none from rfl,
        show toolBeta.costEstimate = none from rfl,
        show toolBeta.latencyEstimate = none from rfl])

/-- C2: every decision a route call returns flags approval exactly when its
confidence is below 0.8; when flagged, the approval reason is the low
confidence message carrying the confidence rendered as a percentage with
one decimal (the `"72.0%"` substring for confidence 0.72, exhibited by the
middle append factor); otherwise the reason is absent. -/
theorem route_requiresApproval_iff (cfg : RouterConfig) (opts : RouteOptions)
    (sim : ToolDefinition → ℚ) (requestId : String)
    (tools : List ToolDefinition) (d : RoutingDecision)
    (hd : (route cfg opts sim requestId tools).decision = some d) :
    (d.requiresApproval = true ↔ d.confidence < 8 / 10)
    ∧ (d.confidence < 8 / 10 →
        d.approvalReason =
          some ("Low confidence (" ++ (toFixed1 (d.confidence * 100) ++ "%")
            ++ ")"))
    ∧ (¬ d.confidence < 8 / 10 → d.approvalReason = none) := by
  cases h : rankedMatches cfg opts sim tools with
  | nil => rw [route, h] at hd; cases hd
  | cons best rest =>
      rw [route, h] at hd
      injection hd with hd2
      subst hd2
      refine ⟨by simp, fun hlt => ?_, fun hge => ?_⟩
      · show (if best.confidence < 8 / 10 then
            some ("Low confidence (" ++ toFixed1 (best.confidence * 100)
              ++ "%)")
          else none) = _
        rw [if_pos hlt]
        simp only [String.append_assoc]
        rfl
      · show (if best.confidence < 8 / 10 then
            some ("Low confidence (" ++ toFixed1 (best.confidence * 100)
              ++ "%)")
          else none) = none
        rw [if_neg hge]

def cfgLowThresh : RouterConfig :=
  { defaultRouterConfig with similarityThreshold := 7 / 10 }

def simSeventyTwo : ToolDefinition → ℚ := fun _ => 18 / 25

/-- The decision the router returns for a single plain tool at similarity
0.72 under a 0.7 similarity threshold. -/
def decisionSeventyTwo : RoutingDecision :=
  { requestId := "r1", selectedTool := toolAlpha, confidence := 18 / 25
    reasoning := "Semantic similarity: 72.0%", fallbackTools := []
    estimatedLatency := 100, estimatedCost := 0, requiresApproval := true
    approvalReason := some "Low confidence (72.0%)" }

theorem route_seventyTwo_decision :
    (route cfgLowThresh noRouteOptions simSeventyTwo "r1" [toolAlpha]).decision
      = some decisionSeventyTwo := by
  norm_num [route, rankedMatches, validMatches, matchTools, sortByScoreDesc,
    calculateConfidence, costAdjust, latencyAdjust, generateReasoning,
    toFixed1, toFixed2, clamp, jsOrQ, jsOrN, cfgLowThresh, defaultRouterConfig,
    noRouteOptions, toolAlpha, simSeventyTwo, decisionSeventyTwo, min_def,
    max_def, List.filterMap_cons, scoreGe] <;> decide

/-- Witness for C2: at confidence 0.72 the approval flag is set and the
reason carries "72.0%". -/
theorem route_requiresApproval_iff_witness :
    ((decisionSeventyTwo.requiresApproval = true
        ↔ decisionSeventyTwo.confidence < 8 / 10)
      ∧ (decisionSeventyTwo.confidence < 8 / 10 →
          decisionSeventyTwo.approvalReason =
            some ("Low confidence ("
              ++ (toFixed1 (decisionSeventyTwo.confidence * 100) ++ "%")
              ++ ")"))
      ∧ (¬ decisionSeventyTwo.confidence < 8 / 10 →
          decisionSeventyTwo.approvalReason = none))
    ∧ decisionSeventyTwo.approvalReason = some "Low confidence (72.0%)" :=
  ⟨route_requiresApproval_iff cfgLowThresh noRouteOptions simSeventyTwo "r1"
      [toolAlpha] decisionSeventyTwo route_seventyTwo_decision, rfl⟩

/-- C3 (amended): when a route call fails with NO_MATCH, the result carries
as alternatives up to three of the candidate matches, each of which reached
the similarity threshold in `matchTools` but fell below the effective
minimum confidence after adjustment. -/
theorem route_noMatch_alternatives (cfg : RouterConfig) (opts : RouteOptions)
    (sim : ToolDefinition → ℚ) (requestId : String)
    (tools : List ToolDefinition)
    (hf : (route cfg opts sim requestId tools).success = false) :
    (route cfg opts sim requestId tools).error = some routeNoMatchError
    ∧ (route cfg opts sim requestId tools).alternatives =
        (matchTools cfg sim tools).take 3
    ∧ (route cfg opts sim requestId tools).alternatives.length ≤ 3
    ∧ ∀ m ∈ (route cfg opts sim requestId tools).alternatives,
        cfg.similarityThreshold ≤ m.score
        ∧ m.confidence < jsOrQ opts.minConfidence cfg.minConfidence := by
  cases h : rankedMatches cfg opts sim tools with
  | cons best rest => rw [route, h] at hf; cases hf
  | nil =>
      have hvalid : validMatches cfg opts sim tools = [] :=
        rankedMatches_eq_nil h
      refine ⟨?_, ?_, ?_, ?_⟩
      · rw [route, h]
      · rw [route, h]
      · rw [route, h]
        exact (List.length_take_le 3 _).trans (le_refl 3)
      · rw [route, h]
        intro m hm
        have hmem : m ∈ matchTools cfg sim tools := List.take_subset 3 _ hm
        refine ⟨matchTools_score_threshold hmem, ?_⟩
        have := List.filter_eq_nil_iff.mp hvalid m hmem
        simpa using lt_of_not_le (by simpa using this)

def toolGamma : ToolDefinition :=
  ⟨"t3", "gamma", "expensive slow tool", some ⟨10000, 20000⟩, some 100000⟩

def simGamma : ToolDefinition → ℚ := fun _ => 17 / 20

/-- C3 counterexample: a NO_MATCH result whose alternative scores 0.85, at
(not below) the 0.85 similarity threshold; its adjusted confidence
0.85·(91/101)² ≈ 0.69 fell below minConfidence instead. -/
theorem route_noMatch_alternatives_cex :
    (route defaultRouterConfig noRouteOptions simGamma "r1"
        [toolGamma]).success = false
    ∧ (route defaultRouterConfig noRouteOptions simGamma "r1"
        [toolGamma]).error = some routeNoMatchError
    ∧ (route defaultRouterConfig noRouteOptions simGamma "r1"
        [toolGamma]).alternatives.map ToolMatch.score = [17 / 20]
    ∧ ¬ ((17 : ℚ) / 20 < defaultRouterConfig.similarityThreshold) := by
  refine ⟨?_, ?_, ?_, by norm_num [defaultRouterConfig]⟩ <;>
    norm_num [route, rankedMatches, validMatches, matchTools, sortByScoreDesc,
      calculateConfidence, costAdjust, latencyAdjust, clamp, jsOrQ, jsOrN,
      defaultRouterConfig, noRouteOptions, toolGamma, simGamma, min_def,
      max_def, List.filterMap_cons, scoreGe, routeNoMatchError]

/-- Witness for C3 at the same concrete NO_MATCH call. -/
theorem route_noMatch_alternatives_witness :
    (route defaultRouterConfig noRouteOptions simGamma "r1"
        [toolGamma]).error = some routeNoMatchError
    ∧ (route defaultRouterConfig noRouteOptions simGamma "r1"
        [toolGamma]).alternatives =
        (matchTools defaultRouterConfig simGamma [toolGamma]).take 3
    ∧ (route defaultRouterConfig noRouteOptions simGamma "r1"
        [toolGamma]).alternatives.length ≤ 3
    ∧ ∀ m ∈ (route defaultRouterConfig noRouteOptions simGamma "r1"
        [toolGamma]).alternatives,
        defaultRouterConfig.similarityThreshold ≤ m.score
        ∧ m.confidence < jsOrQ noRouteOptions.minConfidence
            defaultRouterConfig.minConfidence :=
  route_noMatch_alternatives defaultRouterConfig noRouteOptions simGamma "r1"
    [toolGamma]
    (by
      norm_num [route, rankedMatches, validMatches, matchTools, sortByScoreDesc,
        calculateConfidence, costAdjust, latencyAdjust, clamp, jsOrQ, jsOrN,
        defaultRouterConfig, noRouteOptions, toolGamma, simGamma, min_def,
        max_def, List.filterMap_cons, scoreGe])

/-! ## Sandbox runtime (packages/sandbox-runtime, runtime.ts)

The pool state machine.  Async suspension points (the `await` in
`createSandbox` and around tool dispatch) are modelled by splitting
`execute` and the maintenance loop into the atomic steps between
suspensions: acquisition, creation completing, an execution finishing (or
failing), idle reaping, and a warm-up creation completing and inserting.
The sandbox `Map` appears as its key list (`sandboxes`); `held` lists the
sandboxes currently owned by in-flight `execute` calls.  `createdEvents`
and `destroyedEvents` count completed `createSandbox`/`destroySandbox`
calls (the quantities the spec calls created and destroyed). -/

structure SandboxPoolConfig where
  minInstances : ℕ
  maxInstances : ℕ
  idleTimeoutMs : ℕ
deriving DecidableEq, Repr

/-- The constructor defaults (warmupIntervalMs only drives the timer). -/
def defaultPoolConfig : SandboxPoolConfig := ⟨2, 100, 300000⟩

inductive SandboxStatus where
  | creating
  | ready
  | running
  | destroyed
deriving DecidableEq, Repr

structure Sandbox where
  id : String
  image : String
  status : SandboxStatus
  createdAt : ℕ
  lastUsedAt : ℕ
  executionCount : ℕ
deriving DecidableEq, Repr

/-- The metrics counters the runtime updates (averageColdStartMs and
resourceUtilization are initialized to 0 and never written, and are
omitted). -/
structure SandboxMetrics where
  totalSandboxes : ℕ
  activeSandboxes : ℤ
  poolHitRate : ℚ
deriving DecidableEq, Repr

structure RuntimeState where
  sandboxes : List String
  pool : List Sandbox
  held : List Sandbox
  metrics : SandboxMetrics
  createdEvents : ℕ
  destroyedEvents : ℕ
  config : SandboxPoolConfig
deriving DecidableEq, Repr

def initRuntimeState (cfg : SandboxPoolConfig) : RuntimeState :=
  ⟨[], [], [], ⟨0, 0, 0⟩, 0, 0, cfg⟩

/-- `SandboxRuntime.destroySandbox`: mark destroyed, delete from the map,
decrement the active counter.  (It does not touch the pool; every caller
removes the sandbox from pool or holder first.) -/
def destroySandbox (s : RuntimeState) (sb : Sandbox) : RuntimeState :=
  { s with
      sandboxes := s.sandboxes.filter (fun i => i != sb.id)
      metrics := { s.metrics with
        activeSandboxes := s.metrics.activeSandboxes - 1 }
      destroyedEvents := s.destroyedEvents + 1 }

/-- `SandboxRuntime.createSandbox` completing: the new ready sandbox enters
the map and both counters increase; its timestamps are the creation start
time. -/
def createSandbox (s : RuntimeState) (id image : String) (startTime : ℕ) :
    RuntimeState × Sandbox :=
  let sb : Sandbox := ⟨id, image, .ready, startTime, startTime, 0⟩
  ({ s with
      sandboxes :=
        if id ∈ s.sandboxes then s.sandboxes else s.sandboxes ++ [id]
      metrics := { s.metrics with
        totalSandboxes := s.metrics.totalSandboxes + 1
        activeSandboxes := s.metrics.activeSandboxes + 1 }
      createdEvents := s.createdEvents + 1 }, sb)

/-- The ascending last-used order of `getFromPool`
(`sort((a, b) => a.lastUsedAt - b.lastUsedAt)`, a stable sort). -/
def lastUsedLe (a b : Sandbox) : Prop := a.lastUsedAt ≤ b.lastUsedAt

instance : DecidableRel lastUsedLe := fun a b =>
  inferInstanceAs (Decidable (a.lastUsedAt ≤ b.lastUsedAt))

/-- `SandboxRuntime.getFromPool`: take the least-recently-used ready pool
member, remove it from the pool (by id) and hand it out as running. -/
def getFromPool (s : RuntimeState) : RuntimeState × Option Sandbox :=
  match List.insertionSort lastUsedLe
      (s.pool.filter (fun sb => sb.status == .ready)) with
  | [] => (s, none)
  | sb :: _ =>
      ({ s with pool := s.pool.filter (fun x => x.id != sb.id) },
        some { sb with status := .running })

/-- `SandboxRuntime.calculatePoolHitRate`. -/
def calculatePoolHitRate (current : ℚ) (hit : Bool) : ℚ :=
  current * (9 / 10) + (if hit then 1 else 0) * (1 / 10)

/-- `SandboxRuntime.returnToPool`: when the pool is full, `shift()` the
FRONT entry out and destroy it, then push the returning sandbox as ready. -/
def returnToPool (s : RuntimeState) (sb : Sandbox) : RuntimeState :=
  let s1 :=
    if s.config.maxInstances ≤ s.pool.length then
      match s.pool with
      | [] => s
      | oldest :: rest => destroySandbox { s with pool := rest } oldest
    else s
  { s1 with pool := s1.pool ++ [{ sb with status := .ready }] }

/-- The reap phase of `SandboxRuntime.maintainPool`: drop and destroy every
pool member idle longer than `idleTimeoutMs` (truncated subtraction agrees
with JS here: a negative idle time never exceeds the timeout). -/
def reapIdle (s : RuntimeState) (nowMs : ℕ) : RuntimeState :=
  let dropped := s.pool.filter
    (fun sb => s.config.idleTimeoutMs < nowMs - sb.lastUsedAt)
  let kept := s.pool.filter
    (fun sb => ¬ s.config.idleTimeoutMs < nowMs - sb.lastUsedAt)
  dropped.foldl destroySandbox { s with pool := kept }

/-- The atomic steps of the runtime between suspension points.  The id of a
creation step is the `generateId()` result; the time arguments are the
`now()` readings at that step (a warm-up completion carries the earlier
time at which its creation started). -/
inductive RuntimeOp where
  | acquire
  | createTool (id toolId : String) (startTime : ℕ)
  | finishExec (id : String) (t : ℕ)
  | failExec (id : String)
  | reap (nowMs : ℕ)
  | warmComplete (id : String) (startTime : ℕ)
deriving DecidableEq, Repr

/-- One step.  Creation steps are guarded by the freshness of the generated
id; a finish/fail step for an id no executor holds is a no-op. -/
def applyOp (s : RuntimeState) : RuntimeOp → RuntimeState
  | .acquire =>
      match getFromPool s with
      | (s1, none) => s1
      | (s1, some sb) =>
          { s1 with
              held := s1.held ++ [sb]
              metrics := { s1.metrics with
                poolHitRate :=
                  calculatePoolHitRate s1.metrics.poolHitRate true } }
  | .createTool id toolId t =>
      if id ∈ s.sandboxes then s
      else
        let c := createSandbox s id ("tool-" ++ toolId) t
        { c.1 with held := c.1.held ++ [c.2] }
  | .finishExec id t =>
      match s.held.find? (fun sb => sb.id == id) with
      | none => s
      | some sb =>
          returnToPool { s with held := s.held.filter (fun x => x.id != id) }
            { sb with lastUsedAt := t, executionCount := sb.executionCount + 1 }
  | .failExec id =>
      match s.held.find? (fun sb => sb.id == id) with
      | none => s
      | some sb =>
          destroySandbox { s with held := s.held.filter (fun x => x.id != id) }
            sb
  | .reap t => reapIdle s t
  | .warmComplete id t =>
      if id ∈ s.sandboxes then s
      else
        let c := createSandbox s id "generic-runtime" t
        returnToPool c.1 c.2

def runOps (cfg : SandboxPoolConfig) (ops : List RuntimeOp) : RuntimeState :=
  ops.foldl applyOp (initRuntimeState cfg)

/-- The ids of the sandboxes currently sitting in the pool or held by an
executor. -/
def poolHeldIds (s : RuntimeState) : List String :=
  (s.pool ++ s.held).map Sandbox.id

/-- The well-formedness the runtime maintains between steps: the active
counter tracks the size of the sandbox map, the created counter splits into
destroyed plus live, and the pooled/held sandboxes are distinct live
sandboxes. -/
structure RuntimeInv (s : RuntimeState) : Prop where
  active_eq : s.metrics.activeSandboxes = (s.sandboxes.length : ℤ)
  created_eq : s.createdEvents = s.destroyedEvents + s.sandboxes.length
  nodup_map : s.sandboxes.Nodup
  nodup_ph : (poolHeldIds s).Nodup
  ph_sub : ∀ i ∈ poolHeldIds s, i ∈ s.sandboxes

theorem runtimeInv_init (cfg : SandboxPoolConfig) :
    RuntimeInv (initRuntimeState cfg) := by
  refine ⟨rfl, rfl, ?_, ?_, ?_⟩ <;> simp [initRuntimeState, poolHeldIds]

theorem poolHeldIds_destroySandbox (s : RuntimeState) (sb : Sandbox) :
    poolHeldIds (destroySandbox s sb) = poolHeldIds s := rfl

theorem filter_ne_of_nodup {l : List String} {i : String} (hn : l.Nodup)
    (hm : i ∈ l) :
    (l.filter (fun x => x != i)).length = l.length - 1
    ∧ (l.filter (fun x => x != i)).Nodup
    ∧ ∀ j, j ∈ l.filter (fun x => x != i) ↔ j ∈ l ∧ j ≠ i := by
  have he : l.filter (fun x => x != i) = l.erase i :=
    (hn.erase_eq_filter i).symm
  refine ⟨?_, ?_, ?_⟩
  · rw [he]; exact List.length_erase_of_mem hm
  · exact hn.filter _
  · intro j
    simp [List.mem_filter]

theorem runtimeInv_destroySandbox {s : RuntimeState} {sb : Sandbox}
    (h : RuntimeInv s) (hmem : sb.id ∈ s.sandboxes)
    (hph : sb.id ∉ poolHeldIds s) : RuntimeInv (destroySandbox s sb) := by
  obtain ⟨hlen, hnd, hiff⟩ := filter_ne_of_nodup h.nodup_map hmem
  have hpos : 1 ≤ s.sandboxes.length := List.length_pos.mpr
    (List.ne_nil_of_mem hmem)
  refine ⟨?_, ?_, hnd, h.nodup_ph, ?_⟩
  · show s.metrics.activeSandboxes - 1 =
      ((s.sandboxes.filter (fun x => x != sb.id)).length : ℤ)
    rw [h.active_eq, hlen]
    omega
  · show s.createdEvents = s.destroyedEvents + 1 +
      (s.sandboxes.filter (fun x => x != sb.id)).length
    rw [hlen]
    have hce := h.created_eq
    omega
  · intro i hi
    exact (hiff i).mpr ⟨h.ph_sub i hi, fun hEq =>
      hph (hEq ▸ hi)⟩

theorem runtimeInv_returnToPool {s : RuntimeState} {sb : Sandbox}
    (h : RuntimeInv s) (hmem : sb.id ∈ s.sandboxes)
    (hph : sb.id ∉ poolHeldIds s) : RuntimeInv (returnToPool s sb) := by
  have key : ∀ s1 : RuntimeState, RuntimeInv s1 → sb.id ∈ s1.sandboxes →
      sb.id ∉ poolHeldIds s1 →
      RuntimeInv { s1 with pool := s1.pool ++ [{ sb with status := .ready }] } := by
    intro s1 h1 hm1 hp1
    refine ⟨h1.active_eq, h1.created_eq, h1.nodup_map, ?_, ?_⟩
    · show ((s1.pool ++ [{ sb with status := .ready }] ++ s1.held).map
        Sandbox.id).Nodup
      have hperm : List.Perm
          (s1.pool ++ [{ sb with status := .ready }] ++ s1.held)
          ({ sb with status := .ready } :: (s1.pool ++ s1.held)) := by
        rw [List.append_assoc]
        exact List.perm_middle
      refine ((hperm.map Sandbox.id).nodup_iff).mpr ?_
      exact List.nodup_cons.mpr ⟨hp1, h1.nodup_ph⟩
    · intro i hi
      rcases List.mem_map.mp hi with ⟨x, hx, rfl⟩
      rcases List.mem_append.mp hx with hx | hx
      · rcases List.mem_append.mp hx with hx | hx
        · exact h1.ph_sub _ (List.mem_map_of_mem _
            (List.mem_append.mpr (Or.inl hx)))
        · rcases List.mem_singleton.mp hx with rfl
          exact hm1
      · exact h1.ph_sub _ (List.mem_map_of_mem _
          (List.mem_append.mpr (Or.inr hx)))
  rw [returnToPool]
  by_cases hfull : s.config.maxInstances ≤ s.pool.length
  · rw [if_pos hfull]
    cases hp : s.pool with
    | nil => simpa [hp] using key s h hmem hph
    | cons oldest rest =>
        have holdmem : oldest.id ∈ poolHeldIds s := by
          rw [poolHeldIds, hp]
          exact List.mem_map_of_mem _ (by simp)
        have hrest : poolHeldIds { s with pool := rest } =
            rest.map Sandbox.id ++ s.held.map Sandbox.id := by
          simp [poolHeldIds]
        have hphS : poolHeldIds s =
            oldest.id :: (rest.map Sandbox.id ++ s.held.map Sandbox.id) := by
          simp [poolHeldIds, hp]
        have hnd := h.nodup_ph
        rw [hphS] at hnd
        have hInv2 : RuntimeInv { s with pool := rest } := by
          refine ⟨h.active_eq, h.created_eq, h.nodup_map, ?_, ?_⟩
          · rw [hrest]; exact (List.nodup_cons.mp hnd).2
          · intro i hi
            rw [hrest] at hi
            exact h.ph_sub i (by rw [hphS]; exact List.mem_cons_of_mem _ hi)
        have hoErase : oldest.id ∉ poolHeldIds { s with pool := rest } := by
          rw [hrest]; exact (List.nodup_cons.mp hnd).1
        have hInv3 := runtimeInv_destroySandbox hInv2
          (h.ph_sub _ holdmem) hoErase
        refine key _ hInv3 ?_ ?_
        · have hne : sb.id ≠ oldest.id := fun hEq => hph (hEq ▸ holdmem)
          have := (filter_ne_of_nodup h.nodup_map (h.ph_sub _ holdmem)).2.2
          exact (this sb.id).mpr ⟨hmem, hne⟩
        · rw [poolHeldIds_destroySandbox]
          intro hc
          exact hph (by rw [hphS]; exact List.mem_cons_of_mem _ (hrest ▸ hc))
  · rw [if_neg hfull]
    exact key s h hmem hph

theorem runtimeInv_createSandbox {s : RuntimeState} (id img : String) (t : ℕ)
    (h : RuntimeInv s) (hid : id ∉ s.sandboxes) :
    RuntimeInv (createSandbox s id img t).1
    ∧ (createSandbox s id img t).1.sandboxes = s.sandboxes ++ [id]
    ∧ (createSandbox s id img t).1.pool = s.pool
    ∧ (createSandbox s id img t).1.held = s.held
    ∧ (createSandbox s id img t).2.id = id := by
  have hsand : (createSandbox s id img t).1.sandboxes = s.sandboxes ++ [id] := by
    simp [createSandbox, hid]
  refine ⟨⟨?_, ?_, ?_, h.nodup_ph, ?_⟩, hsand, rfl, rfl, rfl⟩
  · show s.metrics.activeSandboxes + 1 = _
    rw [h.active_eq, hsand, List.length_append]
    simp only [List.length_singleton]
    push_cast
    ring
  · show s.createdEvents + 1 = s.destroyedEvents + _
    rw [h.created_eq, hsand, List.length_append]
    simp only [List.length_singleton]
    omega
  · rw [hsand]
    simp [List.nodup_append, h.nodup_map, hid]
  · intro i hi
    rw [hsand]
    exact List.mem_append_left _ (h.ph_sub i hi)

theorem runtimeInv_appendHeld {s : RuntimeState} (sb : Sandbox)
    (h : RuntimeInv s) (hmem : sb.id ∈ s.sandboxes)
    (hph : sb.id ∉ poolHeldIds s) :
    RuntimeInv { s with held := s.held ++ [sb] } := by
  refine ⟨h.active_eq, h.created_eq, h.nodup_map, ?_, ?_⟩
  · show ((s.pool ++ (s.held ++ [sb])).map Sandbox.id).Nodup
    have hperm : List.Perm (s.pool ++ (s.held ++ [sb]))
        (sb :: (s.pool ++ s.held)) := by
      rw [← List.append_assoc]
      exact List.perm_append_singleton _ _
    exact ((hperm.map Sandbox.id).nodup_iff).mpr
      (List.nodup_cons.mpr ⟨hph, h.nodup_ph⟩)
  · intro i hi
    rcases List.mem_map.mp hi with ⟨x, hx, rfl⟩
    rcases List.mem_append.mp hx with hx | hx
    · exact h.ph_sub _ (List.mem_map_of_mem _ (List.mem_append.mpr (Or.inl hx)))
    · rcases List.mem_append.mp hx with hx | hx
      · exact h.ph_sub _ (List.mem_map_of_mem _
          (List.mem_append.mpr (Or.inr hx)))
      · rcases List.mem_singleton.mp hx with rfl
        exact hmem

/-- Ids are unique in the pool-or-held population, so two of its members
sharing an id are one sandbox. -/
theorem poolHeld_id_inj {s : RuntimeState} (h : RuntimeInv s) {x y : Sandbox}
    (hx : x ∈ s.pool ++ s.held) (hy : y ∈ s.pool ++ s.held)
    (hxy : x.id = y.id) : x = y :=
  List.inj_on_of_nodup_map h.nodup_ph hx hy hxy

theorem runtimeInv_filterHeld {s : RuntimeState} (p : Sandbox → Bool)
    (h : RuntimeInv s) :
    RuntimeInv { s with held := s.held.filter p } := by
  have hsub : List.Sublist (s.pool ++ s.held.filter p) (s.pool ++ s.held) :=
    List.Sublist.append_left (List.filter_sublist _) _
  refine ⟨h.active_eq, h.created_eq, h.nodup_map, ?_, ?_⟩
  · exact List.Nodup.sublist (hsub.map Sandbox.id) h.nodup_ph
  · intro i hi
    exact h.ph_sub i ((hsub.map Sandbox.id).mem hi)

theorem runtimeInv_filterPool {s : RuntimeState} (p : Sandbox → Bool)
    (h : RuntimeInv s) :
    RuntimeInv { s with pool := s.pool.filter p } := by
  have hsub : List.Sublist (s.pool.filter p ++ s.held) (s.pool ++ s.held) :=
    List.Sublist.append_right (List.filter_sublist _) _
  refine ⟨h.active_eq, h.created_eq, h.nodup_map, ?_, ?_⟩
  · exact List.Nodup.sublist (hsub.map Sandbox.id) h.nodup_ph
  · intro i hi
    exact h.ph_sub i ((hsub.map Sandbox.id).mem hi)

theorem runtimeInv_foldl_destroy :
    ∀ (l : List Sandbox) (s : RuntimeState), RuntimeInv s →
      (l.map Sandbox.id).Nodup →
      (∀ sb ∈ l, sb.id ∈ s.sandboxes) →
      (∀ sb ∈ l, sb.id ∉ poolHeldIds s) →
      RuntimeInv (l.foldl destroySandbox s)
  | [], s, h, _, _, _ => h
  | sb :: l, s, h, hnd, hmem, hph => by
      have hstep := runtimeInv_destroySandbox h (hmem sb (by simp))
        (hph sb (by simp))
      have hiff := (filter_ne_of_nodup h.nodup_map (hmem sb (by simp))).2.2
      refine runtimeInv_foldl_destroy l (destroySandbox s sb) hstep
        ((List.nodup_cons.mp hnd).2) ?_ ?_
      · intro x hx
        refine (hiff x.id).mpr ⟨hmem x (List.mem_cons_of_mem _ hx), ?_⟩
        intro hEq
        exact (List.nodup_cons.mp hnd).1 (hEq ▸ List.mem_map_of_mem _ hx)
      · intro x hx
        rw [poolHeldIds_destroySandbox]
        exact hph x (List.mem_cons_of_mem _ hx)

theorem runtimeInv_applyOp {s : RuntimeState} (h : RuntimeInv s) :
    ∀ op : RuntimeOp, RuntimeInv (applyOp s op)
  | .acquire => by
      rw [applyOp, getFromPool]
      cases hsort : List.insertionSort lastUsedLe
          (s.pool.filter fun sb => sb.status == SandboxStatus.ready) with
      | nil => exact h
      | cons sb rest =>
          have hphnd : (s.pool.map Sandbox.id ++ s.held.map Sandbox.id).Nodup := by
            simpa [poolHeldIds] using h.nodup_ph
          have hdisj := (List.nodup_append.mp hphnd).2.2
          have hsbpool : sb ∈ s.pool := by
            have hmem : sb ∈ List.insertionSort lastUsedLe
                (s.pool.filter fun sb => sb.status == SandboxStatus.ready) := by
              rw [hsort]; exact List.mem_cons_self _ _
            exact List.mem_of_mem_filter
              ((List.perm_insertionSort _ _).mem_iff.mp hmem)
          have hpoolid : sb.id ∈ s.pool.map Sandbox.id :=
            List.mem_map_of_mem _ hsbpool
          have h1 := runtimeInv_filterPool (fun x => x.id != sb.id) h
          have hph1 : sb.id ∉
              poolHeldIds { s with pool := s.pool.filter fun x => x.id != sb.id } := by
            intro hc
            rcases List.mem_map.mp hc with ⟨x, hx, hxid⟩
            rcases List.mem_append.mp hx with hx | hx
            · rcases List.mem_filter.mp hx with ⟨_, hne⟩
              have hne2 : x.id ≠ sb.id := by simpa using hne
              exact hne2 hxid
            · exact hdisj hpoolid (hxid ▸ List.mem_map_of_mem _ hx)
          have hmem1 : sb.id ∈ s.sandboxes :=
            h.ph_sub _ (List.mem_map_of_mem _ (List.mem_append_left _ hsbpool))
          have h2 := runtimeInv_appendHeld { sb with status := .running }
            h1 hmem1 hph1
          exact ⟨h2.active_eq, h2.created_eq, h2.nodup_map, h2.nodup_ph,
            h2.ph_sub⟩
  | .createTool id toolId t => by
      rw [applyOp]
      by_cases hid : id ∈ s.sandboxes
      · rw [if_pos hid]; exact h
      · rw [if_neg hid]
        obtain ⟨h1, hsand, hpool, hheld, hsbid⟩ :=
          runtimeInv_createSandbox id ("tool-" ++ toolId) t h hid
        refine runtimeInv_appendHeld _ h1 ?_ ?_
        · rw [hsbid, hsand]
          exact List.mem_append_right _ (List.mem_singleton_self _)
        · rw [hsbid]
          intro hc
          have : poolHeldIds (createSandbox s id ("tool-" ++ toolId) t).1 =
              poolHeldIds s := by
            rw [poolHeldIds, poolHeldIds, hpool, hheld]
          exact hid (h.ph_sub _ (this ▸ hc))
  | .finishExec id t => by
      rw [applyOp]
      cases hf : s.held.find? (fun sb => sb.id == id) with
      | none => exact h
      | some sb =>
          have hsbmem : sb ∈ s.held := List.mem_of_find?_eq_some hf
          have hsbid : sb.id = id := by
            have := List.find?_some hf
            simpa using this
          subst hsbid
          have hphnd : (s.pool.map Sandbox.id ++ s.held.map Sandbox.id).Nodup := by
            simpa [poolHeldIds] using h.nodup_ph
          have hdisj := (List.nodup_append.mp hphnd).2.2
          have h1 := runtimeInv_filterHeld (fun x => x.id != sb.id) h
          refine runtimeInv_returnToPool h1 ?_ ?_
          · have hmem1 : sb.id ∈ s.sandboxes := h.ph_sub _
              (List.mem_map_of_mem _ (List.mem_append_right _ hsbmem))
            exact hmem1
          · intro hc
            rcases List.mem_map.mp hc with ⟨x, hx, hxid⟩
            rcases List.mem_append.mp hx with hx | hx
            · exact hdisj (hxid ▸ List.mem_map_of_mem _ hx)
                (List.mem_map_of_mem _ hsbmem)
            · rcases List.mem_filter.mp hx with ⟨_, hne⟩
              have hne2 : x.id ≠ sb.id := by simpa using hne
              exact hne2 hxid
  | .failExec id => by
      rw [applyOp]
      cases hf : s.held.find? (fun sb => sb.id == id) with
      | none => exact h
      | some sb =>
          have hsbmem : sb ∈ s.held := List.mem_of_find?_eq_some hf
          have hsbid : sb.id = id := by
            have := List.find?_some hf
            simpa using this
          subst hsbid
          have hphnd : (s.pool.map Sandbox.id ++ s.held.map Sandbox.id).Nodup := by
            simpa [poolHeldIds] using h.nodup_ph
          have hdisj := (List.nodup_append.mp hphnd).2.2
          have h1 := runtimeInv_filterHeld (fun x => x.id != sb.id) h
          refine runtimeInv_destroySandbox h1 ?_ ?_
          · have hmem1 : sb.id ∈ s.sandboxes := h.ph_sub _
              (List.mem_map_of_mem _ (List.mem_append_right _ hsbmem))
            exact hmem1
          · intro hc
            rcases List.mem_map.mp hc with ⟨x, hx, hxid⟩
            rcases List.mem_append.mp hx with hx | hx
            · exact hdisj (hxid ▸ List.mem_map_of_mem _ hx)
                (List.mem_map_of_mem _ hsbmem)
            · rcases List.mem_filter.mp hx with ⟨_, hne⟩
              have hne2 : x.id ≠ sb.id := by simpa using hne
              exact hne2 hxid
  | .reap t => by
      rw [applyOp, reapIdle]
      have hphnd : (s.pool.map Sandbox.id ++ s.held.map Sandbox.id).Nodup := by
        simpa [poolHeldIds] using h.nodup_ph
      have hpoolnd : (s.pool.map Sandbox.id).Nodup :=
        (List.nodup_append.mp hphnd).1
      have hdisj := (List.nodup_append.mp hphnd).2.2
      have hk := runtimeInv_filterPool
        (fun sb => ¬ s.config.idleTimeoutMs < t - sb.lastUsedAt) h
      refine runtimeInv_foldl_destroy _ _ hk ?_ ?_ ?_
      · exact List.Nodup.sublist ((List.filter_sublist _).map _) hpoolnd
      · intro sb hsb
        exact h.ph_sub _ (List.mem_map_of_mem _
          (List.mem_append_left _ (List.mem_of_mem_filter hsb)))
      · intro sb hsb
        intro hc
        rcases List.mem_map.mp hc with ⟨x, hx, hxid⟩
        rcases List.mem_append.mp hx with hx | hx
        · have hxpool := List.mem_of_mem_filter hx
          have hsbpool := List.mem_of_mem_filter hsb
          have hEq : x = sb :=
            List.inj_on_of_nodup_map hpoolnd hxpool hsbpool hxid
          subst hEq
          have hxp := (List.mem_filter.mp hx).2
          have hsp := (List.mem_filter.mp hsb).2
          simp at hxp hsp
          omega
        · exact hdisj (List.mem_map_of_mem _ (List.mem_of_mem_filter hsb))
            (hxid ▸ List.mem_map_of_mem _ hx)
  | .warmComplete id t => by
      rw [applyOp]
      by_cases hid : id ∈ s.sandboxes
      · rw [if_pos hid]; exact h
      · rw [if_neg hid]
        obtain ⟨h1, hsand, hpool, hheld, hsbid⟩ :=
          runtimeInv_createSandbox id "generic-runtime" t h hid
        refine runtimeInv_returnToPool h1 ?_ ?_
        · rw [hsbid, hsand]
          exact List.mem_append_right _ (List.mem_singleton_self _)
        · rw [hsbid]
          intro hc
          have : poolHeldIds (createSandbox s id "generic-runtime" t).1 =
              poolHeldIds s := by
            rw [poolHeldIds, poolHeldIds, hpool, hheld]
          exact hid (h.ph_sub _ (this ▸ hc))

theorem runtimeInv_runOps (cfg : SandboxPoolConfig) (ops : List RuntimeOp) :
    RuntimeInv (runOps cfg ops) := by
  rw [runOps]
  have key : ∀ (l : List RuntimeOp) (s : RuntimeState), RuntimeInv s →
      RuntimeInv (l.foldl applyOp s) := by
    intro l
    induction l with
    | nil => exact fun s hs => hs
    | cons op l ih => exact fun s hs => ih _ (runtimeInv_applyOp hs op)
  exact key ops _ (runtimeInv_init cfg)

/-- C5 (amended): between runtime steps the active-sandbox counter equals
the number of sandboxes created minus the number destroyed — pooled
sandboxes remain counted as active — and it is never negative. -/
theorem runtime_active_created_minus_destroyed (cfg : SandboxPoolConfig)
    (ops : List RuntimeOp) :
    (runOps cfg ops).metrics.activeSandboxes =
      ((runOps cfg ops).createdEvents : ℤ) - (runOps cfg ops).destroyedEvents
    ∧ 0 ≤ (runOps cfg ops).metrics.activeSandboxes := by
  have h := runtimeInv_runOps cfg ops
  have hc := h.created_eq
  constructor
  · rw [h.active_eq]
    omega
  · rw [h.active_eq]
    exact Int.natCast_nonneg _

/-- C5 counterexample: one sandbox created and returned to the pool; the
active counter is 1 (the pooled sandbox counts as active), but
created - destroyed - pool.length = 1 - 0 - 1 = 0. -/
theorem runtime_active_count_cex :
    (runOps defaultPoolConfig
        [.createTool "a" "T" 0, .finishExec "a" 1]).metrics.activeSandboxes = 1
    ∧ (runOps defaultPoolConfig
        [.createTool "a" "T" 0, .finishExec "a" 1]).createdEvents = 1
    ∧ (runOps defaultPoolConfig
        [.createTool "a" "T" 0, .finishExec "a" 1]).destroyedEvents = 0
    ∧ (runOps defaultPoolConfig
        [.createTool "a" "T" 0, .finishExec "a" 1]).pool.length = 1
    ∧ ¬ ((1 : ℤ) = 1 - 0 - 1) := by
  refine ⟨by decide, by decide, by decide, by decide, by decide⟩

def cfgSmallPool : SandboxPoolConfig := ⟨2, 2, 300000⟩

/-- A reachable interleaving: a warm-up creation started at time 0
completes after an execution has returned at time 6, leaving the pool
unsorted by last-used time; the ops are warm w1, execute tool e (returned
at 6, evicting nothing), warm w2 completing late (evicting w1), and
execute tool f (returned at 11). -/
def c4ops : List RuntimeOp :=
  [.warmComplete "w1" 0, .createTool "e" "T" 5, .finishExec "e" 6,
   .warmComplete "w2" 0, .createTool "f" "T" 10, .finishExec "f" 11]

/-- C4: at the final return the pool is [e (last used 6), w2 (last used 0)]
and `returnToPool` shifts and destroys the FRONT entry e, although the
pooled sandbox w2 has the strictly older last-used time 0 — the code evicts
the earliest-inserted sandbox, not the oldest by last-used-at as its own
comment ("Pool full, destroy oldest") and the spec state. -/
theorem returnToPool_evicts_front_not_oldest :
    ((runOps cfgSmallPool (c4ops.take 4)).pool.map
      fun sb => (sb.id, sb.lastUsedAt)) = [("e", 6), ("w2", 0)]
    ∧ ((runOps cfgSmallPool c4ops).pool.map
      fun sb => (sb.id, sb.lastUsedAt)) = [("w2", 0), ("f", 11)]
    ∧ "e" ∉ (runOps cfgSmallPool c4ops).sandboxes
    ∧ "w2" ∈ (runOps cfgSmallPool c4ops).sandboxes
    ∧ (0 : ℕ) < 6 := by
  refine ⟨by decide, by decide, by decide, by decide, by decide⟩

/-! ## Embedding cache (intent-router, embeddings/service.ts,
InMemoryEmbeddingCache)

JS `Map`s are association lists in insertion order; `Date.now()` readings
are the explicit `nowMs` arguments. -/

/-- `Map.set`: update in place when the key exists, else append. -/
def assocSet {α : Type} (m : List (String × α)) (k : String) (v : α) :
    List (String × α) :=
  if m.any (fun p => p.1 == k) then
    m.map (fun p => if p.1 == k then (k, v) else p)
  else m ++ [(k, v)]

/-- `Map.delete`. -/
def assocDelete {α : Type} (m : List (String × α)) (k : String) :
    List (String × α) :=
  m.filter (fun p => p.1 != k)

structure InMemoryEmbeddingCache where
  cache : List (String × List ℚ)
  timestamps : List (String × ℕ)
  ttlMs : ℕ
deriving Repr

/-- An `InMemoryEmbeddingCache` as constructed (default TTL 300 000 ms). -/
def emptyCache (ttlMs : ℕ) : InMemoryEmbeddingCache := ⟨[], [], ttlMs⟩

/-- `InMemoryEmbeddingCache.set`: unconditional upsert of the vector and a
fresh timestamp. -/
def cacheSet (c : InMemoryEmbeddingCache) (k : String) (v : List ℚ)
    (nowMs : ℕ) : InMemoryEmbeddingCache :=
  { c with
      cache := assocSet c.cache k v
      timestamps := assocSet c.timestamps k nowMs }

/-- `InMemoryEmbeddingCache.get`: a missing or falsy (0) timestamp is a
miss; an entry older than the TTL is deleted from both maps and is a miss;
otherwise the stored vector is returned.  Returns the result together with
the possibly-evicted state.  (ℕ subtraction matches JS here: a negative age
is never above the TTL.) -/
def cacheGet (c : InMemoryEmbeddingCache) (k : String) (nowMs : ℕ) :
    Option (List ℚ) × InMemoryEmbeddingCache :=
  match c.timestamps.lookup k with
  | none => (none, c)
  | some ts =>
      if ts = 0 then (none, c)
      else if c.ttlMs < nowMs - ts then
        (none, { c with
          cache := assocDelete c.cache k
          timestamps := assocDelete c.timestamps k })
      else (c.cache.lookup k, c)

theorem lookup_cons {α : Type} (k : String) (p : String × α)
    (m : List (String × α)) :
    List.lookup k (p :: m) = if k == p.1 then some p.2 else List.lookup k m := by
  rcases p with ⟨a, b⟩
  cases h : k == a <;> simp [List.lookup, h]

theorem lookup_assocSet {α : Type} (m : List (String × α)) (k : String)
    (v : α) : (assocSet m k v).lookup k = some v := by
  rw [assocSet]
  by_cases hk : m.any (fun p => p.1 == k)
  · rw [if_pos hk]
    induction m with
    | nil => cases hk
    | cons p m ih =>
        by_cases hp : p.1 == k
        · rw [List.map_cons, if_pos hp, lookup_cons]
          simp
        · have hk2 : m.any (fun p => p.1 == k) := by
            rcases List.any_eq_true.mp hk with ⟨x, hx, hxk⟩
            rcases List.mem_cons.mp hx with rfl | hx
            · exact absurd hxk (by simpa using hp)
            · exact List.any_eq_true.mpr ⟨x, hx, hxk⟩
          have hkp : (k == p.1) = false := by
            have : p.1 ≠ k := by simpa using hp
            simpa using Ne.symm this
          rw [List.map_cons, if_neg (by simpa using hp), lookup_cons, if_neg
            (by simp [hkp])]
          exact ih hk2
  · rw [if_neg hk]
    induction m with
    | nil => simp [lookup_cons]
    | cons p m ih =>
        have hp : (p.1 == k) = false := by
          by_contra hc
          exact hk (List.any_eq_true.mpr ⟨p, List.mem_cons_self _ _,
            by simpa using hc⟩)
        have hk2 : ¬ m.any (fun p => p.1 == k) = true := by
          intro hc
          rcases List.any_eq_true.mp hc with ⟨x, hx, hxk⟩
          exact hk (List.any_eq_true.mpr ⟨x, List.mem_cons_of_mem _ hx, hxk⟩)
        have hkp : (k == p.1) = false := by
          have : p.1 ≠ k := by simpa using hp
          simpa using Ne.symm this
        rw [List.cons_append, lookup_cons, if_neg (by simp [hkp])]
        exact ih hk2

theorem lookup_assocDelete {α : Type} (m : List (String × α)) (k : String) :
    (assocDelete m k).lookup k = none := by
  induction m with
  | nil => rfl
  | cons p m ih =>
      by_cases hp : p.1 == k
      · have h0 : (p.1 != k) = false := by simpa using hp
        simpa [assocDelete, List.filter_cons, h0] using ih
      · have h1 : (p.1 != k) = true := by simpa using hp
        have hkp : (k == p.1) = false := by
          have : p.1 ≠ k := by simpa using hp
          simpa using Ne.symm this
        rw [assocDelete, List.filter_cons, h1]
        simp only [if_true]
        rw [lookup_cons, if_neg (by simp [hkp])]
        exact ih

/-- C7: writing a vector and reading the same key within the TTL returns
exactly that vector (with the state untouched); reading once the age
strictly exceeds the TTL is a miss and evicts the entry from both maps.
The hypothesis 0 < writeMs reflects that `Date.now()` is positive (a
0 timestamp would be falsy and read as missing). -/
theorem cache_read_after_write (c : InMemoryEmbeddingCache) (k : String)
    (v : List ℚ) (writeMs readMs : ℕ) (hw : 0 < writeMs)
    (hwr : writeMs ≤ readMs) :
    (readMs - writeMs ≤ (cacheSet c k v writeMs).ttlMs →
      cacheGet (cacheSet c k v writeMs) k readMs =
        (some v, cacheSet c k v writeMs))
    ∧ ((cacheSet c k v writeMs).ttlMs < readMs - writeMs →
        (cacheGet (cacheSet c k v writeMs) k readMs).1 = none
        ∧ ((cacheGet (cacheSet c k v writeMs) k readMs).2.cache.lookup k
            = none)
        ∧ ((cacheGet (cacheSet c k v writeMs) k readMs).2.timestamps.lookup k
            = none)) := by
  have hts : (cacheSet c k v writeMs).timestamps.lookup k = some writeMs :=
    lookup_assocSet _ _ _
  have hcv : (cacheSet c k v writeMs).cache.lookup k = some v :=
    lookup_assocSet _ _ _
  constructor
  · intro hfresh
    simp only [cacheGet, hts]
    rw [if_neg (by omega), if_neg (by omega)]
    rw [hcv]
  · intro hstale
    simp only [cacheGet, hts]
    rw [if_neg (by omega), if_pos (by omega)]
    exact ⟨rfl, lookup_assocDelete _ _, lookup_assocDelete _ _⟩

/-- Witness for C7 on a fresh cache with the default TTL: a hit at age
1000 ms, a miss with eviction at age 400 000 ms. -/
theorem cache_read_after_write_witness :
    (2000 - 1000 ≤ (cacheSet (emptyCache 300000) "intent:x" [1, 2] 1000).ttlMs →
      cacheGet (cacheSet (emptyCache 300000) "intent:x" [1, 2] 1000)
          "intent:x" 2000 =
        (some [1, 2], cacheSet (emptyCache 300000) "intent:x" [1, 2] 1000))
    ∧ ((cacheSet (emptyCache 300000) "intent:x" [1, 2] 1000).ttlMs <
          401000 - 1000 →
        (cacheGet (cacheSet (emptyCache 300000) "intent:x" [1, 2] 1000)
            "intent:x" 401000).1 = none
        ∧ ((cacheGet (cacheSet (emptyCache 300000) "intent:x" [1, 2] 1000)
            "intent:x" 401000).2.cache.lookup "intent:x" = none)
        ∧ ((cacheGet (cacheSet (emptyCache 300000) "intent:x" [1, 2] 1000)
            "intent:x" 401000).2.timestamps.lookup "intent:x" = none)) := by
  have h := cache_read_after_write (emptyCache 300000) "intent:x" [1, 2]
    1000 2000 (by decide) (by decide)
  have h2 := cache_read_after_write (emptyCache 300000) "intent:x" [1, 2]
    1000 401000 (by decide) (by decide)
  exact ⟨h.1, h2.2⟩

/-! ## Audit stream (packages/audit-interface/src/stream/stream.ts)

Subscriber handlers are modelled by an id and their observable behavior on
a batch (whether the call throws); `flush` reports the batch each handler
was invoked with, the number of handler errors caught and logged, and the
batch handed to the persistence sink. -/

structure AuditEntry where
  id : String
  timestamp : ℕ
  traceId : String
  eventType : String
  severity : String
  actor : String
deriving DecidableEq, Repr

structure AuditHandler where
  id : ℕ
  throwsOn : List AuditEntry → Bool

structure AuditStreamState where
  buffer : List AuditEntry
  handlers : List AuditHandler
  bufferSize : ℕ

/-- What one flush (or capacity-triggered flush) emitted: per handler the
batch it was invoked with (a throwing handler is still invoked — its error
is caught), the count of caught handler errors, and the batch passed to
`persist`. -/
structure FlushPerformed where
  delivered : List (ℕ × List AuditEntry)
  handlerErrors : ℕ
  persisted : Option (List AuditEntry)
deriving DecidableEq, Repr

def noFlush : FlushPerformed := ⟨[], 0, none⟩

/-- `AuditStream.flush`: nothing on an empty buffer; otherwise detach the
buffer, invoke every handler with the detached batch (errors are caught and
logged, so the loop continues and the batch still reaches `persist`), then
persist the batch. -/
def flushStream (s : AuditStreamState) : AuditStreamState × FlushPerformed :=
  if s.buffer.isEmpty then (s, noFlush)
  else
    ({ s with buffer := [] },
      { delivered := s.handlers.map fun h => (h.id, s.buffer)
        handlerErrors := (s.handlers.filter fun h => h.throwsOn s.buffer).length
        persisted := some s.buffer })

/-- `AuditStream.write`: append to the buffer; at capacity, flush
synchronously. -/
def writeStream (s : AuditStreamState) (e : AuditEntry) :
    AuditStreamState × FlushPerformed :=
  let s1 : AuditStreamState := { s with buffer := s.buffer ++ [e] }
  if s.bufferSize ≤ s.buffer.length + 1 then flushStream s1 else (s1, noFlush)

/-- C9: after write(e) then a flush, every handler subscribed at flush time
was invoked with exactly one batch across the two steps, the batch contains
e exactly once, the number of logged handler errors equals the number of
throwing handlers (the loop survives them), and the same batch reached the
persistence sink exactly once. -/
theorem stream_write_flush_fanout (s : AuditStreamState) (e : AuditEntry)
    (he : e ∉ s.buffer) :
    ∃ b : List AuditEntry,
      ((writeStream s e).2.delivered
          ++ (flushStream (writeStream s e).1).2.delivered)
        = s.handlers.map (fun h => (h.id, b))
      ∧ b.count e = 1
      ∧ ((writeStream s e).2.handlerErrors
          + (flushStream (writeStream s e).1).2.handlerErrors)
        = (s.handlers.filter fun h => h.throwsOn b).length
      ∧ (((writeStream s e).2.persisted = some b
            ∧ (flushStream (writeStream s e).1).2.persisted = none)
        ∨ ((writeStream s e).2.persisted = none
            ∧ (flushStream (writeStream s e).1).2.persisted = some b)) := by
  refine ⟨s.buffer ++ [e], ?_⟩
  have hcount : (s.buffer ++ [e]).count e = 1 := by
    rw [List.count_append]
    simp [List.count_eq_zero_of_not_mem he]
  have hne : ¬ (s.buffer ++ [e]).isEmpty := by
    simp
  by_cases hcap : s.bufferSize ≤ s.buffer.length + 1
  · simp [writeStream, flushStream, hcap, hne, hcount, noFlush]
  · simp [writeStream, flushStream, hcap, hne, hcount, noFlush]

def entryLogin : AuditEntry :=
  ⟨"e1", 1000, "trace1", "request_received", "info", "alice"⟩

def handlerOk : AuditHandler := ⟨1, fun _ => false⟩

def handlerBad : AuditHandler := ⟨2, fun _ => true⟩

/-- Witness for C9: an empty two-subscriber stream (one handler throws);
both handlers receive the singleton batch once and the batch is
persisted. -/
theorem stream_write_flush_fanout_witness :
    ∃ b : List AuditEntry,
      ((writeStream ⟨[], [handlerOk, handlerBad], 100⟩ entryLogin).2.delivered
          ++ (flushStream (writeStream ⟨[], [handlerOk, handlerBad], 100⟩
              entryLogin).1).2.delivered)
        = [handlerOk, handlerBad].map (fun h => (h.id, b))
      ∧ b.count entryLogin = 1
      ∧ ((writeStream ⟨[], [handlerOk, handlerBad], 100⟩
            entryLogin).2.handlerErrors
          + (flushStream (writeStream ⟨[], [handlerOk, handlerBad], 100⟩
              entryLogin).1).2.handlerErrors)
        = ([handlerOk, handlerBad].filter fun h => h.throwsOn b).length
      ∧ (((writeStream ⟨[], [handlerOk, handlerBad], 100⟩
              entryLogin).2.persisted = some b
            ∧ (flushStream (writeStream ⟨[], [handlerOk, handlerBad], 100⟩
                entryLogin).1).2.persisted = none)
        ∨ ((writeStream ⟨[], [handlerOk, handlerBad], 100⟩
              entryLogin).2.persisted = none
            ∧ (flushStream (writeStream ⟨[], [handlerOk, handlerBad], 100⟩
                entryLogin).1).2.persisted = some b)) :=
  stream_write_flush_fanout ⟨[], [handlerOk, handlerBad], 100⟩ entryLogin
    (by simp)

/-! ## JavaScript payload values and the protocol adapters
(packages/protocol-adapter)

Raw payloads are arbitrary JS values; property access on undefined or null
throws, as does reading `.length` of `JSON.stringify(undefined)` (which is
undefined).  Thrown exceptions are `Except.error`; the try/catch blocks of
the adapters are explicit matches.  Error message texts are abbreviated
versions of the engine's texts. -/

inductive JSValue where
  | undef
  | null
  | bool (b : Bool)
  | num (q : ℚ)
  | str (s : String)
  | arr (elems : List JSValue)
  | obj (fields : List (String × JSValue))

inductive JSError where
  | typeError (message : String)
deriving DecidableEq, Repr

def errMessage : JSError → String
  | .typeError m => m

/-- JS truthiness. -/
def truthy : JSValue → Bool
  | .undef => false
  | .null => false
  | .bool b => b
  | .num q => q != 0
  | .str s => s != ""
  | .arr _ => true
  | .obj _ => true

/-- Property access `v.k`: throws on undefined and null, yields undefined
for a missing key or a non-object. -/
def getField (v : JSValue) (k : String) : Except JSError JSValue :=
  match v with
  | .undef => .error (.typeError "Cannot read properties of undefined")
  | .null => .error (.typeError "Cannot read properties of null")
  | .obj fields => .ok ((fields.lookup k).getD .undef)
  | _ => .ok .undef

def jsQuoteChar (c : Char) : List Char :=
  if c = '"' ∨ c = '\\' then ['\\', c] else [c]

def jsQuote (s : String) : String :=
  "\"" ++ String.mk (s.data.map jsQuoteChar).flatten ++ "\""

mutual

/-- `JSON.stringify`: undefined (alone) serializes to undefined (`none`);
undefined-valued object entries are dropped; undefined array items become
null. -/
def jsonStringify : JSValue → Option String
  | .undef => none
  | .null => some "null"
  | .bool b => some (if b then "true" else "false")
  | .num q => some (toString q)
  | .str s => some (jsQuote s)
  | .arr xs => some ("[" ++ String.intercalate "," (jsonArrayItems xs) ++ "]")
  | .obj fs =>
      some ("\x7b" ++ String.intercalate "," (jsonObjItems fs) ++ "\x7d")

def jsonArrayItems : List JSValue → List String
  | [] => []
  | x :: xs => ((jsonStringify x).getD "null") :: jsonArrayItems xs

def jsonObjItems : List (String × JSValue) → List String
  | [] => []
  | (k, v) :: fs =>
      match jsonStringify v with
      | none => jsonObjItems fs
      | some sv => (jsQuote k ++ ":" ++ sv) :: jsonObjItems fs

end

/-- `JSON.stringify(raw).length` — the rawSize metadata every adapter
computes; reading `.length` throws when stringify returned undefined. -/
def jsonLength (v : JSValue) : Except JSError ℕ :=
  match jsonStringify v with
  | none => .error (.typeError "Cannot read properties of undefined")
  | some s => .ok s.length

structure ErrorInfo where
  code : String
  message : String
  suggestion : Option String
deriving DecidableEq, Repr

structure ParseMetadata where
  protocol : String
  timestamp : ℕ
  rawSize : ℕ
deriving DecidableEq, Repr

structure ParseResult where
  success : Bool
  data : JSValue
  error : Option ErrorInfo
  metadata : ParseMetadata

def parseFailure (protocol : String) (t : ℕ) (code message : String)
    (suggestion : Option String) (rawSize : ℕ) : ParseResult :=
  ⟨false, .undef, some ⟨code, message, suggestion⟩, ⟨protocol, t, rawSize⟩⟩

/-- JS strict equality of a value against a string literal. -/
def jsStrictEqStr (v : JSValue) (s : String) : Bool :=
  match v with
  | .str t => t == s
  | _ => false

/-- The body of `MCPAdapter.parse` (inside the try). -/
def mcpParseBody (t : ℕ) (raw : JSValue) : Except JSError ParseResult := do
  let jsonrpc ← getField raw "jsonrpc"
  if ¬ jsStrictEqStr jsonrpc "2.0" then
    let n ← jsonLength raw
    pure (parseFailure "mcp" t "INVALID_JSONRPC"
      "Missing or invalid jsonrpc version"
      (some "Ensure payload follows JSON-RPC 2.0 spec") n)
  else do
    let method ← getField raw "method"
    if ¬ truthy method then
      let n ← jsonLength raw
      pure (parseFailure "mcp" t "MISSING_METHOD" "Missing method field" none n)
    else do
      let n ← jsonLength raw
      pure ⟨true, raw, none, ⟨"mcp", t, n⟩⟩

/-- `MCPAdapter.parse`: the try/catch — note the catch itself computes
`JSON.stringify(rawPayload).length`, which rethrows for an undefined
payload. -/
def mcpParse (t : ℕ) (raw : JSValue) : Except JSError ParseResult :=
  match mcpParseBody t raw with
  | .ok r => .ok r
  | .error e => do
      let n ← jsonLength raw
      pure (parseFailure "mcp" t "PARSE_ERROR" (errMessage e) none n)

/-- The body of `ACPAdapter.parse` (inside the try). -/
def acpParseBody (t : ℕ) (raw : JSValue) : Except JSError ParseResult := do
  let header ← getField raw "header"
  if ¬ truthy header then
    let n ← jsonLength raw
    pure (parseFailure "acp" t "MISSING_HEADER" "Missing header field" none n)
  else do
    let body ← getField raw "body"
    if ¬ truthy body then
      let n ← jsonLength raw
      pure (parseFailure "acp" t "MISSING_BODY" "Missing body field" none n)
    else do
      let n ← jsonLength raw
      pure ⟨true, raw, none, ⟨"acp", t, n⟩⟩

/-- `ACPAdapter.parse` with its try/catch (same catch-block rethrow as
mcp). -/
def acpParse (t : ℕ) (raw : JSValue) : Except JSError ParseResult :=
  match acpParseBody t raw with
  | .ok r => .ok r
  | .error e => do
      let n ← jsonLength raw
      pure (parseFailure "acp" t "PARSE_ERROR" (errMessage e) none n)

structure NormalizedIntent where
  category : String
  action : JSValue
  target : JSValue
  parameters : JSValue
  confidence : ℚ

structure NormalizeResult where
  success : Bool
  intent : Option NormalizedIntent
  error : Option ErrorInfo

/-- `ACPAdapter.mapMessageTypeToCategory`: calls `.toLowerCase()` on the
message type, which throws when it is not a string. -/
def mapMessageTypeToCategory (messageType : JSValue) :
    Except JSError String :=
  match messageType with
  | .str s =>
      .ok (match s.toLower with
        | "command" => "action_execution"
        | "query" => "information_request"
        | "event" => "conversation"
        | "response" => "conversation"
        | _ => "conversation")
  | _ => .error (.typeError "toLowerCase is not a function")

/-- `ACPAdapter.normalize`: a failed or data-less parse yields the
discriminated NORMALIZE_ERROR; otherwise the intent is built field by
field (so `payload.header.message_type.toLowerCase()` can throw). -/
def acpNormalize (parsed : ParseResult) : Except JSError NormalizeResult :=
  if ¬ (parsed.success ∧ truthy parsed.data) then
    .ok ⟨false, none, some ⟨"NORMALIZE_ERROR", "Cannot normalize failed parse", none⟩⟩
  else do
    let header ← getField parsed.data "header"
    let messageType ← getField header "message_type"
    let category ← mapMessageTypeToCategory messageType
    let body ← getField parsed.data "body"
    let action ← getField body "action"
    let receiver ← getField header "receiver_id"
    let payloadField ← getField body "payload"
    let options ← getField body "options"
    let sender ← getField header "sender_id"
    let messageId ← getField header "message_id"
    let correlationId ← getField header "correlation_id"
    pure ⟨true,
      some ⟨category, action, receiver,
        .obj [("payload", payloadField), ("options", options),
          ("sender", sender), ("messageId", messageId),
          ("correlationId", correlationId)],
        95 / 100⟩,
      none⟩

/-- C6: the adapters can throw.  `MCPAdapter.parse(undefined)` and
`ACPAdapter.parse(undefined)` throw a TypeError (the property access
throws, and the catch block rethrows computing
`JSON.stringify(undefined).length`); and a payload whose header is a
truthy non-object passes `ACPAdapter.parse` but makes
`ACPAdapter.normalize` throw on `.toLowerCase()`. -/
theorem adapter_parse_normalize_throw :
    mcpParse 0 JSValue.undef =
      .error (.typeError "Cannot read properties of undefined")
    ∧ acpParse 0 JSValue.undef =
      .error (.typeError "Cannot read properties of undefined")
    ∧ (acpParse 0 (.obj [("header", .num 5), ("body", .num 1)])).bind
        acpNormalize =
      .error (.typeError "toLowerCase is not a function")
    ∧ (mcpParse 0 JSValue.null).isOk = true :=
  ⟨rfl, rfl, rfl, rfl⟩

/-! ## The adapter dispatcher (protocol-adapter/src/adapter.ts)

`ProtocolAdapter.convert` looks the adapter up in its registry and runs
parse then normalize; the universally quantified `Adapter` below stands for
whichever adapter the registry returned (the acp adapter above is one
instance).  `generateId()` results and `now()` readings are explicit
arguments. -/

inductive Protocol where
  | mcp
  | a2a
  | ucp
  | acp
  | openai
  | anthropic
deriving DecidableEq, Repr

structure Adapter where
  parse : ℕ → JSValue → Except JSError ParseResult
  normalize : ParseResult → Except JSError NormalizeResult

def acpAdapter : Adapter := ⟨acpParse, fun pr => acpNormalize pr⟩

structure RequestContext where
  sessionId : String
  userId : String
  conversationHistory : List JSValue
  availableTools : List JSValue
  constraints : List JSValue
  preferences : List JSValue

structure RequestMetadata where
  priority : ℕ
  maxLatencyMs : ℕ
  maxBudgetCents : ℕ
  requireHumanApproval : Bool
  auditLevel : String
  traceId : String

/-- The normalizedIntent field is the `normalizeResult.intent!` value: the
non-null assertion is erased at runtime, so a missing intent passes
through as-is (`none`). -/
structure AgentRequest where
  id : String
  timestamp : ℕ
  sourceProtocol : Protocol
  rawPayload : JSValue
  normalizedIntent : Option NormalizedIntent
  context : RequestContext
  metadata : RequestMetadata

/-- JS `a || b` for an optional string ("" is falsy). -/
def jsOrStr (o : Option String) (d : String) : String :=
  match o with
  | some s => if s = "" then d else s
  | none => d

/-- `ProtocolAdapter.convert` for a looked-up adapter: a failed parse or
normalize throws the typed Error; an exception from the adapter itself
propagates.  `reqId`, `sessionId` and `genTraceId` are the three
`generateId()` results, `startTime`/`nowTs` the `now()` readings. -/
def convert (adapter : Adapter) (sourceProtocol : Protocol) (raw : JSValue)
    (traceId : Option String) (startTime nowTs : ℕ)
    (reqId sessionId genTraceId : String) : Except String AgentRequest :=
  match adapter.parse startTime raw with
  | .error e => .error (errMessage e)
  | .ok parseResult =>
    if parseResult.success then
      match adapter.normalize parseResult with
      | .error e => .error (errMessage e)
      | .ok normalizeResult =>
        if normalizeResult.success then
          .ok
            { id := reqId
              timestamp := nowTs
              sourceProtocol := sourceProtocol
              rawPayload := raw
              normalizedIntent := normalizeResult.intent
              context :=
                { sessionId := sessionId
                  userId := "anonymous"
                  conversationHistory := []
                  availableTools := []
                  constraints := []
                  preferences := [] }
              metadata :=
                { priority := 1
                  maxLatencyMs := 30000
                  maxBudgetCents := 1000
                  requireHumanApproval := false
                  auditLevel := "standard"
                  traceId := jsOrStr traceId genTraceId } }
        else
          .error ("Normalize error: "
            ++ jsOrStr (normalizeResult.error.map ErrorInfo.message)
              "Unknown error")
    else
      .error ("Parse error: "
        ++ jsOrStr (parseResult.error.map ErrorInfo.message) "Unknown error")

/-- C10: whatever the adapter and payload, a successful convert installs
the fixed anonymous context and default metadata; in particular the
adapter layer never sets requireHumanApproval. -/
theorem convert_fixed_context_metadata (adapter : Adapter)
    (sourceProtocol : Protocol) (raw : JSValue) (traceId : Option String)
    (startTime nowTs : ℕ) (reqId sessionId genTraceId : String)
    (req : AgentRequest)
    (h : convert adapter sourceProtocol raw traceId startTime nowTs reqId
      sessionId genTraceId = .ok req) :
    req.context.userId = "anonymous"
    ∧ req.context.conversationHistory = []
    ∧ req.context.availableTools = []
    ∧ req.context.constraints = []
    ∧ req.context.preferences = []
    ∧ req.metadata.priority = 1
    ∧ req.metadata.maxLatencyMs = 30000
    ∧ req.metadata.maxBudgetCents = 1000
    ∧ req.metadata.requireHumanApproval = false
    ∧ req.metadata.auditLevel = "standard" := by
  rw [convert] at h
  split at h
  · cases h
  · split at h
    · split at h
      · cases h
      · split at h
        · injection h with h2
          subst h2
          exact ⟨rfl, rfl, rfl, rfl, rfl, rfl, rfl, rfl, rfl, rfl⟩
        · cases h
    · cases h

/-- A well-formed acp payload. -/
def acpGoodPayload : JSValue :=
  .obj [("header", .obj [("message_id", .str "m1"), ("sender_id", .str "s1"),
          ("receiver_id", .str "r1"), ("message_type", .str "query")]),
        ("body", .obj [("action", .str "ping"), ("payload", .null)])]

def dummyAgentRequest : AgentRequest :=
  ⟨"", 0, .acp, .undef, none, ⟨"", "", [], [], [], []⟩,
    ⟨0, 0, 0, false, "", ""⟩⟩

def exceptOkD {ε α : Type} (d : α) : Except ε α → α
  | .ok a => a
  | .error _ => d

/-- Witness for C10: a successful conversion of a concrete acp payload
through the real acp adapter. -/
theorem convert_fixed_context_metadata_witness :
    (exceptOkD dummyAgentRequest (convert acpAdapter .acp acpGoodPayload
        none 0 5 "req1" "sess1" "tr1")).context.userId = "anonymous"
    ∧ (exceptOkD dummyAgentRequest (convert acpAdapter .acp acpGoodPayload
        none 0 5 "req1" "sess1" "tr1")).context.conversationHistory = []
    ∧ (exceptOkD dummyAgentRequest (convert acpAdapter .acp acpGoodPayload
        none 0 5 "req1" "sess1" "tr1")).context.availableTools = []
    ∧ (exceptOkD dummyAgentRequest (convert acpAdapter .acp acpGoodPayload
        none 0 5 "req1" "sess1" "tr1")).context.constraints = []
    ∧ (exceptOkD dummyAgentRequest (convert acpAdapter .acp acpGoodPayload
        none 0 5 "req1" "sess1" "tr1")).context.preferences = []
    ∧ (exceptOkD dummyAgentRequest (convert acpAdapter .acp acpGoodPayload
        none 0 5 "req1" "sess1" "tr1")).metadata.priority = 1
    ∧ (exceptOkD dummyAgentRequest (convert acpAdapter .acp acpGoodPayload
        none 0 5 "req1" "sess1" "tr1")).metadata.maxLatencyMs = 30000
    ∧ (exceptOkD dummyAgentRequest (convert acpAdapter .acp acpGoodPayload
        none 0 5 "req1" "sess1" "tr1")).metadata.maxBudgetCents = 1000
    ∧ (exceptOkD dummyAgentRequest (convert acpAdapter .acp acpGoodPayload
        none 0 5 "req1" "sess1" "tr1")).metadata.requireHumanApproval = false
    ∧ (exceptOkD dummyAgentRequest (convert acpAdapter .acp acpGoodPayload
        none 0 5 "req1" "sess1" "tr1")).metadata.auditLevel = "standard" :=
  convert_fixed_context_metadata acpAdapter .acp acpGoodPayload none 0 5
    "req1" "sess1" "tr1"
    (exceptOkD dummyAgentRequest (convert acpAdapter .acp acpGoodPayload
      none 0 5 "req1" "sess1" "tr1"))
    rfl

/-! ## Embedding generation (EmbeddingService.callEmbeddingAPI,
hashString)

The mock generator: hash the text to a 32-bit seed, build the
pseudo-random components `frac(sin(seed + i * 12.9898) * 43758.5453)`, and
divide by the Euclidean norm.  JS numbers are idealized as reals; the
sin-based arithmetic is exact real arithmetic. -/

/-- Coercion of a JS number to a signed 32-bit integer (the effect of the
bitwise ops in `hashString`). -/
def toInt32 (n : ℤ) : ℤ :=
  let m := n % 4294967296
  if m < 2147483648 then m else m - 4294967296

/-- One step of `hashString`: `hash = ((hash << 5) - hash) + char` followed
by `hash = hash & hash` (the int32 coercion).  Character codes are Unicode
code points (UTF-16 code units in JS; they agree on the basic plane). -/
def hashStep (hash : ℤ) (c : ℕ) : ℤ :=
  toInt32 (toInt32 (hash * 32) - hash + c)

/-- `EmbeddingService.hashString` with the final `Math.abs`. -/
def hashString (s : String) : ℕ :=
  (s.data.foldl (fun h ch => hashStep h ch.toNat) 0).natAbs

/-- One pre-normalization component:
`value = sin(seed + i * 12.9898) * 43758.5453; value - floor(value)`. -/
noncomputable def rawComponent (seed : ℕ) (i : ℕ) : ℝ :=
  let value := Real.sin ((seed : ℝ) + (i : ℝ) * 12.9898) * 43758.5453
  value - (⌊value⌋ : ℝ)

/-- The unnormalized embedding built by the loop in `callEmbeddingAPI`. -/
noncomputable def rawEmbedding (seed : ℕ) (dims : ℕ) : List ℝ :=
  (List.range dims).map (rawComponent seed)

/-- The sum of squares `embedding.reduce((sum, val) => sum + val * val, 0)`
(the squared Euclidean norm). -/
noncomputable def sumSqR (l : List ℝ) : ℝ := (l.map (fun x => x * x)).sum

/-- `EmbeddingService.callEmbeddingAPI`: generate the components and divide
each by the norm. -/
noncomputable def callEmbeddingAPI (seed : ℕ) (dims : ℕ) : List ℝ :=
  let embedding := rawEmbedding seed dims
  let norm := Real.sqrt (sumSqR embedding)
  embedding.map (fun val => val / norm)

/-- The embedding the service produces for a text (every public entry —
intent or tool description — funnels into `callEmbeddingAPI text` with the
configured dimension count; the cache only replays previously generated
vectors unchanged). -/
noncomputable def embedText (text : String) (dims : ℕ) : List ℝ :=
  callEmbeddingAPI (hashString text) dims

theorem sumSqR_nonneg (l : List ℝ) : 0 ≤ sumSqR l := by
  induction l with
  | nil => simp [sumSqR]
  | cons x l ih =>
      simp only [sumSqR, List.map_cons, List.sum_cons]
      exact add_nonneg (mul_self_nonneg x) ih

theorem sumSqR_map_div (l : List ℝ) (c : ℝ) :
    sumSqR (l.map (fun x => x / c)) = sumSqR l / c ^ 2 := by
  induction l with
  | nil => simp [sumSqR]
  | cons x l ih =>
      simp only [sumSqR, List.map_cons, List.sum_cons] at ih ⊢
      rw [ih, div_mul_div_comm, ← pow_two c, div_add_div_same]

theorem sumSqR_pos_of_mem (l : List ℝ) (x : ℝ) (hne : x ≠ 0) :
    x ∈ l → 0 < sumSqR l := by
  induction l with
  | nil => intro hx; cases hx
  | cons y l ih =>
      intro hx
      simp only [sumSqR, List.map_cons, List.sum_cons]
      rcases List.mem_cons.mp hx with h | h
      · subst h
        exact add_pos_of_pos_of_nonneg (mul_self_pos.mpr hne) (sumSqR_nonneg l)
      · have hl := ih h
        simp only [sumSqR] at hl
        exact add_pos_of_nonneg_of_pos (mul_self_nonneg y) hl

set_option maxRecDepth 4096 in
theorem hashString_aepdynir : hashString "aepdynir" = 22 := by decide

theorem sin_twentytwo_eq : Real.sin 22 = -Real.sin (22 - 7 * Real.pi) := by
  have harg : (22 : ℝ) =
      (((22 - 7 * Real.pi + Real.pi) + 2 * Real.pi) + 2 * Real.pi)
        + 2 * Real.pi := by ring
  nth_rewrite 1 [harg]
  rw [Real.sin_add_two_pi, Real.sin_add_two_pi, Real.sin_add_two_pi,
    Real.sin_add, Real.cos_pi, Real.sin_pi]
  ring

/-- 22 lies 0.0088 past 7π, so sin 22 is a small negative number with
certified bounds (π is known to six decimals, and on (0, 1] we have
x - x³/4 < sin x < x). -/
theorem sin_twentytwo_bounds :
    Real.sin 22 < -0.0088488 ∧ (-0.008856 : ℝ) < Real.sin 22 := by
  have hpilo : (3.141592 : ℝ) < Real.pi := Real.pi_gt_d6
  have hpihi : Real.pi < 3.141593 := Real.pi_lt_d6
  have hr1 : (0.008849 : ℝ) < 22 - 7 * Real.pi := by linarith
  have hr2 : (22 : ℝ) - 7 * Real.pi < 0.008856 := by linarith
  have hub : Real.sin (22 - 7 * Real.pi) < 22 - 7 * Real.pi :=
    Real.sin_lt (by linarith)
  have hlb : (22 - 7 * Real.pi) - (22 - 7 * Real.pi) ^ 3 / 4
      < Real.sin (22 - 7 * Real.pi) :=
    Real.sin_gt_sub_cube (by linarith) (by linarith)
  have hcube : (22 - 7 * Real.pi) ^ 3 ≤ (0.008856 : ℝ) ^ 3 :=
    pow_le_pow_left₀ (by linarith) (le_of_lt hr2) 3
  have hc3 : (0.008856 : ℝ) ^ 3 / 4 < 0.0000002 := by norm_num
  constructor
  · rw [sin_twentytwo_eq]
    have hs : (0.0088488 : ℝ) < Real.sin (22 - 7 * Real.pi) := by linarith
    linarith
  · rw [sin_twentytwo_eq]
    linarith

/-- The first raw component at seed 22 is the fractional part of
sin(22)·43758.5453, a number strictly between -388 and -387, so the
component is strictly positive. -/
theorem rawComponent_twentytwo_pos : 0 < rawComponent 22 0 := by
  have hb := sin_twentytwo_bounds
  have hub : Real.sin 22 * 43758.5453 < -387.21 := by linarith [hb.1]
  have hlb : (-387.53 : ℝ) < Real.sin 22 * 43758.5453 := by linarith [hb.2]
  have hfl : ⌊Real.sin 22 * 43758.5453⌋ = (-388 : ℤ) := by
    rw [Int.floor_eq_iff]
    constructor
    · push_cast; linarith
    · push_cast; linarith
  have harg : ((22 : ℕ) : ℝ) + ((0 : ℕ) : ℝ) * 12.9898 = 22 := by norm_num
  have hval : rawComponent 22 0 = Real.sin 22 * 43758.5453 + 388 := by
    simp only [rawComponent, harg]
    rw [hfl]
    push_cast
    ring
  rw [hval]
  linarith

/-- At the concrete text "aepdynir" (which hashes to seed 22) and the
default dimension count 384, the pre-normalization vector is nonzero, so
the normalization never divides by zero there. -/
theorem rawEmbedding_aepdynir_sumSq_ne :
    sumSqR (rawEmbedding (hashString "aepdynir") 384) ≠ 0 := by
  rw [hashString_aepdynir]
  have hmem : rawComponent 22 0 ∈ rawEmbedding 22 384 := by
    simp only [rawEmbedding]
    exact List.mem_map.mpr ⟨0, by simp, rfl⟩
  exact ne_of_gt
    (sumSqR_pos_of_mem _ _ (ne_of_gt rawComponent_twentytwo_pos) hmem)

/-- C8: for every input text and configured dimension count (default 384)
such that the pre-normalization pseudo-random vector is not identically
zero — the hypothesis ruling out the division-by-zero degeneracy, shown
satisfiable at a concrete text by the witness — the produced embedding has
exactly `dims` components and its squared Euclidean norm is exactly 1 in
the real model (so the L2 norm is 1, a fortiori within any ε). -/
theorem embedding_dims_and_unit_norm (text : String) (dims : ℕ)
    (hne : sumSqR (rawEmbedding (hashString text) dims) ≠ 0) :
    (embedText text dims).length = dims
    ∧ sumSqR (embedText text dims) = 1 := by
  constructor
  · simp [embedText, callEmbeddingAPI, rawEmbedding]
  · have h0 := sumSqR_nonneg (rawEmbedding (hashString text) dims)
    show sumSqR ((rawEmbedding (hashString text) dims).map
      (fun val => val / Real.sqrt
        (sumSqR (rawEmbedding (hashString text) dims)))) = 1
    rw [sumSqR_map_div, Real.sq_sqrt h0, div_self hne]

/-- C8 witness: at the text "aepdynir" (hash seed 22) and the default 384
dimensions, the nonzero-vector hypothesis holds concretely — the first raw
component is the fractional part of sin(22)·43758.5453, certified to lie
strictly between -388 and -387 — and the embedding has 384 components with
squared norm exactly 1. -/
theorem embedding_dims_and_unit_norm_witness :
    sumSqR (rawEmbedding (hashString "aepdynir") 384) ≠ 0
    ∧ (embedText "aepdynir" 384).length = 384
    ∧ sumSqR (embedText "aepdynir" 384) = 1 :=
  ⟨rawEmbedding_aepdynir_sumSq_ne,
   embedding_dims_and_unit_norm "aepdynir" 384 rawEmbedding_aepdynir_sumSq_ne⟩
